import Mathlib

/-!
Verification development for the sg-ipo-tracker job runner
(src/job_runner.py).  Python strings are modelled as lists of
characters; the file system is modelled by passing the current content
of the output file explicitly; the clock, the generation service and
the git subprocess calls are oracles recorded in a `World` structure.
-/

namespace SgIpo

/-- Python strings, modelled as lists of characters. -/
abbrev Str := List Char

/-- The whitespace characters recognised by Python str.strip(). -/
def isPySpace (c : Char) : Bool :=
  c == ' ' || c == '\t' || c == '\n' || c == '\r' || c == '\x0b' || c == '\x0c'

/-- Python str.strip(): drop whitespace from both ends. -/
def pyStrip (s : Str) : Str :=
  ((s.dropWhile isPySpace).reverse.dropWhile isPySpace).reverse

/-- Needle is an initial segment of the haystack (first argument is the needle). -/
def startsWith : Str → Str → Bool
  | [], _ => true
  | _ :: _, [] => false
  | a :: s, b :: t => a == b && startsWith s t

/-- Python substring containment: the needle occurs contiguously in the haystack,
at any position.  This is the semantics of Python's `needle in haystack`. -/
def occursIn (needle : Str) : Str → Bool
  | [] => needle.isEmpty
  | b :: t => startsWith needle (b :: t) || occursIn needle t

theorem startsWith_iff (n h : Str) :
    startsWith n h = true ↔ ∃ rest, n ++ rest = h := by
  induction n generalizing h with
  | nil =>
    simp [startsWith]
  | cons a s ih =>
    cases h with
    | nil =>
      simp [startsWith]
    | cons b t =>
      simp only [startsWith, Bool.and_eq_true, beq_iff_eq, ih]
      constructor
      · rintro ⟨rfl, rest, rfl⟩
        exact ⟨rest, rfl⟩
      · rintro ⟨rest, hr⟩
        injection hr with h1 h2
        exact ⟨h1, rest, h2⟩

theorem occursIn_iff (n h : Str) :
    occursIn n h = true ↔ ∃ pre post, pre ++ n ++ post = h := by
  induction h with
  | nil =>
    simp only [occursIn, List.isEmpty_iff]
    constructor
    · rintro rfl
      exact ⟨[], [], rfl⟩
    · rintro ⟨pre, post, hpp⟩
      rcases List.append_eq_nil.mp hpp with ⟨h1, h2⟩
      exact (List.append_eq_nil.mp h1).2
  | cons b t ih =>
    simp only [occursIn, Bool.or_eq_true, startsWith_iff, ih]
    constructor
    · rintro (⟨rest, hr⟩ | ⟨pre, post, hp⟩)
      · exact ⟨[], rest, by simpa using hr⟩
      · exact ⟨b :: pre, post, by simp [hp]⟩
    · rintro ⟨pre, post, hp⟩
      cases pre with
      | nil =>
        exact Or.inl ⟨post, by simpa using hp⟩
      | cons p ps =>
        injection hp with h1 h2
        exact Or.inr ⟨ps, post, h2⟩

theorem occursIn_append_self (e s : Str) : occursIn s (e ++ s) = true := by
  rw [occursIn_iff]
  exact ⟨e, [], by simp⟩

/-- Python "\n".join(lines). -/
def joinWithNL : List Str → Str
  | [] => []
  | [l] => l
  | l :: l2 :: ls => l ++ '\n' :: joinWithNL (l2 :: ls)

theorem joinWithNL_cons (a : Str) (l : List Str) (h : l ≠ []) :
    joinWithNL (a :: l) = a ++ '\n' :: joinWithNL l := by
  cases l with
  | nil => exact absurd rfl h
  | cons b bs => rfl

/-- The header line printed above the discovered-sources list
(src/job_runner.py line 150). -/
def sourcesHeaderLine : Str :=
  "Sources discovered by web search tool (may include duplicates of those cited above):".toList

/-- The list of lines built by append_results_to_file
(src/job_runner.py lines 144-153): separator, timestamp line, body,
then — when the sources list is non-empty — a blank line, a header and
one "- url" line per source, and finally the single-character line "\n". -/
def sectionLines (block_text : Str) (sources : List Str) (stamp : Str) : List Str :=
  ([List.replicate 80 '=', "Run timestamp: ".toList ++ stamp, block_text]
    ++ (if sources.isEmpty then []
        else [[], sourcesHeaderLine] ++ sources.map (fun u => "- ".toList ++ u)))
  ++ [['\n']]

/-- section_text = "\n".join(section) (src/job_runner.py line 155). -/
def sectionText (block_text : Str) (sources : List Str) (stamp : Str) : Str :=
  joinWithNL (sectionLines block_text sources stamp)

/-- append_results_to_file (src/job_runner.py lines 134-169), with the
file system made explicit: `existing` is the current content of
OUTPUT_FILE (empty when the file does not exist), and the returned pair
is (the Python return value, the content of OUTPUT_FILE afterwards).
The duplicate check is Python's `section_text in existing`. -/
def append_results_to_file (existing block_text : Str) (sources : List Str)
    (stamp : Str) : Bool × Str :=
  let s := sectionText block_text sources stamp
  if occursIn s existing then (false, existing) else (true, existing ++ s)

/-- The source-deduplication loop of get_sg_ipo_updates_via_web_search
(src/job_runner.py lines 124-129): `seen` is the membership set,
`acc` the list built so far, in reverse. -/
def uniq_sources_go (seen acc : List Str) : List Str → List Str
  | [] => acc.reverse
  | u :: us =>
    if u ∈ seen then uniq_sources_go seen acc us
    else uniq_sources_go (u :: seen) (u :: acc) us

/-- De-duplicate the sources while keeping order
(src/job_runner.py lines 123-129). -/
def uniq_sources (sources : List Str) : List Str :=
  uniq_sources_go [] [] sources

/-- get_sg_ipo_updates_via_web_search (src/job_runner.py lines 62-131),
with the network call made explicit: `output_text` is resp.output_text
(already coalesced from None to "") and `rawSources` the URLs collected
from the tool-call outputs.  The function strips the text and
de-duplicates the sources. -/
def get_sg_ipo_updates_via_web_search (output_text : Str) (rawSources : List Str) :
    Str × List Str :=
  (pyStrip output_text, uniq_sources rawSources)

/-- Accumulator-free form of the de-duplication loop, used to reason
about uniq_sources_go. -/
def dedupSeen (seen : List Str) : List Str → List Str
  | [] => []
  | u :: us =>
    if u ∈ seen then dedupSeen seen us
    else u :: dedupSeen (u :: seen) us

theorem uniq_sources_go_eq (l : List Str) :
    ∀ seen acc, uniq_sources_go seen acc l = acc.reverse ++ dedupSeen seen l := by
  induction l with
  | nil =>
    intro seen acc
    simp [uniq_sources_go, dedupSeen]
  | cons u us ih =>
    intro seen acc
    by_cases h : u ∈ seen
    · simp [uniq_sources_go, dedupSeen, h, ih]
    · simp [uniq_sources_go, dedupSeen, h, ih]

theorem mem_dedupSeen (l : List Str) :
    ∀ seen u, u ∈ dedupSeen seen l ↔ u ∈ l ∧ u ∉ seen := by
  induction l with
  | nil =>
    intro seen u
    simp [dedupSeen]
  | cons v vs ih =>
    intro seen u
    by_cases hv : v ∈ seen <;> by_cases huv : u = v
    · subst huv
      simp [dedupSeen, hv, ih]
    · simp [dedupSeen, hv, ih, huv]
    · subst huv
      simp [dedupSeen, hv, ih]
    · simp [dedupSeen, hv, ih, huv]

theorem nodup_dedupSeen (l : List Str) :
    ∀ seen, (dedupSeen seen l).Nodup := by
  induction l with
  | nil =>
    intro seen
    simp [dedupSeen]
  | cons v vs ih =>
    intro seen
    by_cases hv : v ∈ seen
    · simpa [dedupSeen, hv] using ih seen
    · simp only [dedupSeen, if_neg hv, List.nodup_cons]
      refine ⟨fun hmem => ?_, ih (v :: seen)⟩
      exact ((mem_dedupSeen vs (v :: seen) v).mp hmem).2 (List.mem_cons_self v seen)

/-- Specification-side definition of first-seen de-duplication: keep
each element's first occurrence, delete the later ones. -/
def dedupFirstSeen : List Str → List Str
  | [] => []
  | u :: us => u :: dedupFirstSeen (us.filter (fun x => decide (x ≠ u)))
termination_by l => l.length
decreasing_by
  simp only [List.length_cons]
  exact Nat.lt_succ_of_le (us.length_filter_le _)

theorem dedupSeen_eq_dedupFirstSeen (l : List Str) :
    ∀ seen, dedupSeen seen l = dedupFirstSeen (l.filter (fun x => decide (x ∉ seen))) := by
  induction l with
  | nil =>
    intro seen
    simp [dedupSeen, dedupFirstSeen]
  | cons v vs ih =>
    intro seen
    by_cases hv : v ∈ seen
    · have hc : (v :: vs).filter (fun x => decide (x ∉ seen))
          = vs.filter (fun x => decide (x ∉ seen)) := by
        simp [List.filter_cons, hv]
      simp only [dedupSeen, if_pos hv, hc, ih]
    · have hc : (v :: vs).filter (fun x => decide (x ∉ seen))
          = v :: vs.filter (fun x => decide (x ∉ seen)) := by
        simp [List.filter_cons, hv]
      have hfilter : vs.filter (fun x => decide (x ∉ v :: seen))
          = (vs.filter (fun x => decide (x ∉ seen))).filter (fun x => decide (x ≠ v)) := by
        rw [List.filter_filter]
        apply List.filter_congr
        intro x _
        by_cases hxv : x = v <;> by_cases hxs : x ∈ seen <;> simp [hxv, hxs]
      simp only [dedupSeen, if_neg hv, hc, ih, hfilter, dedupFirstSeen]

theorem uniq_sources_eq_dedupFirstSeen (l : List Str) :
    uniq_sources l = dedupFirstSeen l := by
  have h := uniq_sources_go_eq l [] []
  have h2 := dedupSeen_eq_dedupFirstSeen l []
  simp only [uniq_sources, h, h2, List.reverse_nil, List.nil_append]
  congr 1
  apply List.filter_eq_self.mpr
  intro x _
  simp

/-- The "- url" lines of the sources block, each preceded by the
newline that "\n".join inserts, ending with the final "\n" line. -/
def dashJoined : List Str → Str
  | [] => ['\n']
  | u :: us => "- ".toList ++ u ++ '\n' :: dashJoined us

theorem joinWithNL_map_dash (us : List Str) :
    joinWithNL (us.map (fun u => "- ".toList ++ u) ++ [['\n']]) = dashJoined us := by
  induction us with
  | nil => rfl
  | cons u us ih =>
    have hne : us.map (fun u => "- ".toList ++ u) ++ [['\n']] ≠ [] := by simp
    rw [List.map_cons, List.cons_append, joinWithNL_cons _ _ hne, ih, dashJoined]

theorem dashJoined_ends_nl (us : List Str) : ∃ r, dashJoined us = r ++ ['\n'] := by
  induction us with
  | nil => exact ⟨[], rfl⟩
  | cons u us ih =>
    obtain ⟨r, hr⟩ := ih
    exact ⟨"- ".toList ++ u ++ '\n' :: r, by simp [dashJoined, hr]⟩

/-- The part of the formatted section that follows the generated body:
empty-sources runs end in "\n\n"; otherwise a blank line, the sources
header and the "- url" lines follow before the trailing newlines. -/
def sectionTail (sources : List Str) : Str :=
  if sources.isEmpty then ['\n', '\n']
  else '\n' :: '\n' :: (sourcesHeaderLine ++ '\n' :: dashJoined sources)

theorem sectionText_closed (b : Str) (src : List Str) (T : Str) :
    sectionText b src T
      = List.replicate 80 '='
        ++ '\n' :: ("Run timestamp: ".toList ++ T ++ '\n' :: (b ++ sectionTail src)) := by
  cases src with
  | nil =>
    simp [sectionText, sectionLines, sectionTail, joinWithNL]
  | cons u us =>
    have h := joinWithNL_map_dash (u :: us)
    simp only [List.map_cons, List.cons_append] at h
    simp at h
    simp [sectionText, sectionLines, sectionTail, joinWithNL, h, dashJoined]

theorem sectionText_ends_nl (b : Str) (src : List Str) (T : Str) :
    ∃ r, sectionText b src T = r ++ ['\n'] := by
  rw [sectionText_closed]
  cases hsrc : src.isEmpty
  · obtain ⟨r, hr⟩ := dashJoined_ends_nl src
    refine ⟨List.replicate 80 '='
      ++ '\n' :: ("Run timestamp: ".toList ++ T ++ '\n'
        :: (b ++ '\n' :: '\n' :: (sourcesHeaderLine ++ '\n' :: r))), ?_⟩
    simp [sectionTail, hsrc, hr]
  · refine ⟨List.replicate 80 '='
      ++ '\n' :: ("Run timestamp: ".toList ++ T ++ '\n' :: (b ++ ['\n'])), ?_⟩
    simp [sectionTail, hsrc]

theorem sectionText_ne_nil (b : Str) (src : List Str) (T : Str) :
    sectionText b src T ≠ [] := by
  intro h
  have hl := congrArg List.length h
  rw [sectionText_closed] at hl
  simp at hl

theorem append_sectionText_ne_self (E b : Str) (src : List Str) (T : Str) :
    E ++ sectionText b src T ≠ E := by
  intro h
  have hl := congrArg List.length h
  simp at hl
  exact sectionText_ne_nil b src T hl

/-- Truthiness of os.environ.get(name): false when the variable is
absent or the empty string. -/
def pyEnvTruthy : Option Str → Bool
  | none => false
  | some s => !s.isEmpty

/-- The error message raised in main when OPENAI_API_KEY is missing
(src/job_runner.py line 197). -/
def errMsgNoKey : Str := "Missing env var OPENAI_API_KEY.".toList

/-- The error message raised in main on empty generated text
(src/job_runner.py line 203). -/
def errMsgEmpty : Str := "OpenAI returned empty text. Check logs and try again.".toList

/-- The error message raised in configure_git_remote_with_token when
GITHUB_TOKEN is missing (src/job_runner.py line 50). -/
def errMsgNoToken : Str := "Missing env var GITHUB_TOKEN (needed to push to GitHub).".toList

/-- The status line printed by main when the output block already
exists (src/job_runner.py line 208). -/
def msgUnchanged : Str := "Output block already exists; file unchanged.".toList

/-- The status line printed after a successful push
(src/job_runner.py line 191). -/
def msgPushed (branch : Str) : Str :=
  "Pushed commit to ".toList ++ branch ++ ".".toList

/-- One invocation's environment and external-effect oracles: the two
credentials and the branch name as found in the process environment,
the outcome of the OpenAI call (a transport error, or the raw
output_text together with the URLs collected from the tool calls), and
the outcomes of the git subprocess groups run by ensure_git_identity,
`git remote set-url`, and git_commit_and_push_if_needed. -/
structure World where
  openaiApiKey : Option Str
  githubToken : Option Str
  githubBranch : Option Str
  genOutcome : Except Str (Str × List Str)
  gitIdentity : Except Str Unit
  gitSetUrl : Except Str Unit
  gitCommitPush : Except Str Unit

/-- configure_git_remote_with_token (src/job_runner.py lines 39-59):
fails when GITHUB_TOKEN is absent or blank, otherwise re-points origin
(an external git call whose outcome is the gitSetUrl oracle). -/
def configure_git_remote_with_token (w : World) : Except Str Unit :=
  if (pyStrip (w.githubToken.getD [])).isEmpty then Except.error errMsgNoToken
  else w.gitSetUrl

/-- main (src/job_runner.py lines 194-218), with the file system made
explicit: `existing` is the content of OUTPUT_FILE before the run
(empty when absent) and `stamp` the formatted local timestamp for this
run.  Returns (the run's outcome — the raised error, or the final
status line — and the content of OUTPUT_FILE after the run). -/
def main (w : World) (existing stamp : Str) : Except Str Str × Str :=
  if pyEnvTruthy w.openaiApiKey = false then (Except.error errMsgNoKey, existing)
  else
    match w.genOutcome with
    | Except.error e => (Except.error e, existing)
    | Except.ok (raw, rawSources) =>
      let tu := get_sg_ipo_updates_via_web_search raw rawSources
      if tu.1.isEmpty then (Except.error errMsgEmpty, existing)
      else
        let r := append_results_to_file existing tu.1 tu.2 stamp
        if r.1 = false then (Except.ok msgUnchanged, r.2)
        else
          match w.gitIdentity with
          | Except.error e => (Except.error e, r.2)
          | Except.ok _ =>
            match configure_git_remote_with_token w with
            | Except.error e => (Except.error e, r.2)
            | Except.ok _ =>
              match w.gitCommitPush with
              | Except.error e => (Except.error e, r.2)
              | Except.ok _ =>
                (Except.ok (msgPushed (pyStrip (w.githubBranch.getD "main".toList))), r.2)

theorem uniq_sources_eq_dedupSeen_nil (l : List Str) :
    uniq_sources l = dedupSeen [] l := by
  simp [uniq_sources, uniq_sources_go_eq]

/-- C8: for every generated body and timestamp, the formatted snapshot
is the fixed-width rule line of 80 equals signs, then a newline, then
the line "Run timestamp: <stamp>", then the generated body, then the
tail holding the optional sources block, and it ends with a trailing
newline; with no sources the tail is exactly the two closing
newlines. -/
theorem snapshot_format (b : Str) (src : List Str) (T : Str) :
    (sectionText b src T
      = List.replicate 80 '='
        ++ '\n' :: ("Run timestamp: ".toList ++ T ++ '\n' :: (b ++ sectionTail src)))
    ∧ (∃ r, sectionText b src T = r ++ ['\n'])
    ∧ sectionTail [] = ['\n', '\n'] :=
  ⟨sectionText_closed b src T, sectionText_ends_nl b src T, rfl⟩

/-- C9: whenever the formatted section occurs as a substring of the
existing file content — at any position, aligned to a section boundary
or not — append_results_to_file performs no write and returns False:
duplicate detection is substring containment. -/
theorem dedup_is_substring_containment (E b : Str) (src : List Str) (T : Str)
    (h : ∃ pre post, pre ++ sectionText b src T ++ post = E) :
    append_results_to_file E b src T = (false, E) := by
  have hoc : occursIn (sectionText b src T) E = true := (occursIn_iff _ _).mpr h
  simp [append_results_to_file, hoc]

/-- Witness for C9: the section occurs strictly inside a larger block,
with non-empty text on both sides, and the call still skips. -/
theorem dedup_is_substring_containment_witness :
    append_results_to_file
        ("A".toList ++ sectionText "x".toList [] "T".toList ++ "B".toList)
        "x".toList [] "T".toList
      = (false, "A".toList ++ sectionText "x".toList [] "T".toList ++ "B".toList) :=
  dedup_is_substring_containment _ _ _ _ ⟨"A".toList, "B".toList, rfl⟩

/-- C10: append_results_to_file returns True exactly when the file
content changed; on False the file is byte-for-byte what it was, and on
True the new content is the old content with the formatted section
appended at the end. -/
theorem append_return_indicates_change (E b : Str) (src : List Str) (T : Str) :
    ((append_results_to_file E b src T).1 = true
        ↔ (append_results_to_file E b src T).2 ≠ E)
    ∧ ((append_results_to_file E b src T).1 = false
        ↔ (append_results_to_file E b src T).2 = E)
    ∧ ((append_results_to_file E b src T).1 = true
        ↔ (append_results_to_file E b src T).2 = E ++ sectionText b src T
          ∧ (append_results_to_file E b src T).2 ≠ E) := by
  by_cases hoc : occursIn (sectionText b src T) E = true
  · simp [append_results_to_file, hoc, append_sectionText_ne_self, sectionText_ne_nil]
  · simp only [Bool.not_eq_true] at hoc
    simp [append_results_to_file, hoc, append_sectionText_ne_self, sectionText_ne_nil]

/-- C1 (amended): a write is issued exactly when the newly formatted
snapshot does not already occur verbatim as a substring of the stored
content; when it does occur, the stored file is left unchanged.  (The
comparison the code performs is verbatim substring containment, not
string comparison after trimming incidental whitespace.) -/
theorem append_write_iff_block_absent (E b : Str) (src : List Str) (T : Str) :
    ((append_results_to_file E b src T).1 = true
        ↔ ¬∃ pre post, pre ++ sectionText b src T ++ post = E)
    ∧ ((∃ pre post, pre ++ sectionText b src T ++ post = E)
        → append_results_to_file E b src T = (false, E)) := by
  by_cases hoc : occursIn (sectionText b src T) E = true
  · have happ : append_results_to_file E b src T = (false, E) := by
      simp [append_results_to_file, hoc]
    refine ⟨?_, fun _ => happ⟩
    rw [happ]
    constructor
    · intro h
      exact (Bool.false_ne_true h).elim
    · intro hn
      exact absurd ((occursIn_iff _ _).mp hoc) hn
  · have hnex : ¬∃ pre post, pre ++ sectionText b src T ++ post = E :=
      fun hx => hoc ((occursIn_iff _ _).mpr hx)
    have happ : append_results_to_file E b src T
        = (true, E ++ sectionText b src T) := by
      simp only [Bool.not_eq_true] at hoc
      simp [append_results_to_file, hoc]
    refine ⟨?_, fun hx => absurd hx hnex⟩
    rw [happ]
    exact ⟨fun _ => hnex, fun _ => rfl⟩

/-- Witness for the amended C1: a stored section block is skipped. -/
theorem append_write_iff_block_absent_witness :
    append_results_to_file (sectionText "x".toList [] "T".toList)
        "x".toList [] "T".toList
      = (false, sectionText "x".toList [] "T".toList) :=
  (append_write_iff_block_absent _ _ _ _).2 ⟨[], [], by simp⟩

/-- Counterexample to C1 as stated: an existing content that equals the
newly formatted snapshot after trimming trailing whitespace (it is the
snapshot minus its closing newlines), yet the code performs a write and
the stored file changes. -/
theorem append_writes_despite_trimmed_equality :
    pyStrip (sectionText "b".toList [] "T".toList)
        = pyStrip (List.replicate 80 '=' ++ "\nRun timestamp: T\nb".toList)
    ∧ (append_results_to_file (List.replicate 80 '=' ++ "\nRun timestamp: T\nb".toList)
        "b".toList [] "T".toList).1 = true
    ∧ (append_results_to_file (List.replicate 80 '=' ++ "\nRun timestamp: T\nb".toList)
        "b".toList [] "T".toList).2
        ≠ List.replicate 80 '=' ++ "\nRun timestamp: T\nb".toList := by
  decide

/-- C2: under the append policy a new section is skipped — no write,
file unmodified, and the run completes successfully reporting no
change — exactly when an identical section, timestamp included, is
already present verbatim in the file; otherwise the section is
appended. -/
theorem append_skip_iff_verbatim_present (E b : Str) (src : List Str) (T : Str) :
    (((append_results_to_file E b src T).1 = false)
        ↔ ∃ pre post, pre ++ sectionText b src T ++ post = E)
    ∧ ((append_results_to_file E b src T).1 = false
        → (append_results_to_file E b src T).2 = E)
    ∧ ((append_results_to_file E b src T).1 = true
        → (append_results_to_file E b src T).2 = E ++ sectionText b src T)
    ∧ (∀ w raw rs, pyEnvTruthy w.openaiApiKey = true
        → w.genOutcome = Except.ok (raw, rs)
        → pyStrip raw ≠ []
        → (∃ pre post,
            pre ++ sectionText (pyStrip raw) (uniq_sources rs) T ++ post = E)
        → main w E T = (Except.ok msgUnchanged, E)) := by
  have hmain : ∀ w raw rs, pyEnvTruthy w.openaiApiKey = true
      → w.genOutcome = Except.ok (raw, rs)
      → pyStrip raw ≠ []
      → (∃ pre post,
          pre ++ sectionText (pyStrip raw) (uniq_sources rs) T ++ post = E)
      → main w E T = (Except.ok msgUnchanged, E) := by
    intro w raw rs hkey hgen htext hex
    have hoc : occursIn (sectionText (pyStrip raw) (uniq_sources rs) T) E = true :=
      (occursIn_iff _ _).mpr hex
    simp [main, hkey, hgen, get_sg_ipo_updates_via_web_search, htext,
      append_results_to_file, hoc]
  by_cases hoc : occursIn (sectionText b src T) E = true
  · have happ : append_results_to_file E b src T = (false, E) := by
      simp [append_results_to_file, hoc]
    refine ⟨?_, ?_, ?_, hmain⟩
    · rw [happ]
      exact ⟨fun _ => (occursIn_iff _ _).mp hoc, fun _ => rfl⟩
    · intro _
      rw [happ]
    · intro h
      simp [happ] at h
  · have hnex : ¬∃ pre post, pre ++ sectionText b src T ++ post = E :=
      fun hx => hoc ((occursIn_iff _ _).mpr hx)
    have happ : append_results_to_file E b src T
        = (true, E ++ sectionText b src T) := by
      simp only [Bool.not_eq_true] at hoc
      simp [append_results_to_file, hoc]
    refine ⟨?_, ?_, ?_, hmain⟩
    · rw [happ]
      constructor
      · intro h
        simp at h
      · intro hx
        exact absurd hx hnex
    · intro h
      simp [happ] at h
    · intro _
      rw [happ]

/-- Witness for C2: a run whose section is already on file skips the
write and reports success with the "file unchanged" status line. -/
theorem append_skip_iff_verbatim_present_witness :
    main (World.mk (some "k".toList) none none (Except.ok ("x".toList, []))
        (Except.ok ()) (Except.ok ()) (Except.ok ()))
      (sectionText "x".toList [] "T".toList) "T".toList
      = (Except.ok msgUnchanged, sectionText "x".toList [] "T".toList) :=
  (append_skip_iff_verbatim_present (sectionText "x".toList [] "T".toList)
      "x".toList [] "T".toList).2.2.2 _ "x".toList [] rfl rfl (by decide)
    ⟨[], [], by decide⟩

theorem pyStrip_eq_nil (s : Str) (h : s.all isPySpace = true) : pyStrip s = [] := by
  have h1 : s.dropWhile isPySpace = [] := by
    rw [List.dropWhile_eq_nil_iff]
    intro x hx
    exact List.all_eq_true.mp h x hx
  simp [pyStrip, h1]

/-- A fully provisioned run: both credentials present, generation
succeeds with body "body" and no sources, every git call succeeds. -/
def Wok : World :=
  World.mk (some "k".toList) (some "t".toList) none
    (Except.ok ("body".toList, [])) (Except.ok ()) (Except.ok ()) (Except.ok ())

/-- C3: when the generation step yields an empty or whitespace-only
string, the run fails with the fatal "empty" error before the write
step — the stored file is untouched — while the non-empty textual
no-results sentence is treated as a fully successful run. -/
theorem empty_generation_fails_before_write (w : World) (E T raw : Str)
    (rs : List Str)
    (hkey : pyEnvTruthy w.openaiApiKey = true)
    (hgen : w.genOutcome = Except.ok (raw, rs))
    (hws : raw.all isPySpace = true) :
    main w E T = (Except.error errMsgEmpty, E)
    ∧ occursIn "empty".toList errMsgEmpty = true
    ∧ main (World.mk (some "k".toList) (some "t".toList) none
        (Except.ok
          ("No credible new Singapore IPO announcements found in the last 7 days.".toList,
            []))
        (Except.ok ()) (Except.ok ()) (Except.ok ())) [] "T".toList
      = (Except.ok (msgPushed "main".toList),
        sectionText
          "No credible new Singapore IPO announcements found in the last 7 days.".toList
          [] "T".toList) := by
  refine ⟨?_, by decide, by rfl⟩
  have hnil := pyStrip_eq_nil raw hws
  simp [main, hkey, hgen, get_sg_ipo_updates_via_web_search, hnil]

/-- Witness for C3: a whitespace-only generation result aborts the run
with the "empty" error and leaves the (empty) file as it was. -/
theorem empty_generation_fails_before_write_witness :
    main (World.mk (some "k".toList) none none (Except.ok ("  ".toList, []))
        (Except.ok ()) (Except.ok ()) (Except.ok ())) [] "T".toList
      = (Except.error errMsgEmpty, []) :=
  (empty_generation_fails_before_write
    (World.mk (some "k".toList) none none (Except.ok ("  ".toList, []))
      (Except.ok ()) (Except.ok ()) (Except.ok ()))
    [] "T".toList "  ".toList [] rfl rfl (by decide)).1

/-- C4 (amended): a missing generation-service credential
(OPENAI_API_KEY) is reported at startup, naming the setting, with the
stored file untouched; but a missing store-write credential
(GITHUB_TOKEN) is reported — naming the setting — only after the
generation call, and only on runs that appended new content, at which
point the local file write has already happened; runs whose section was
already on file succeed without the store-write credential. -/
theorem credential_check_timing :
    (∀ w E T, pyEnvTruthy w.openaiApiKey = false
      → main w E T = (Except.error errMsgNoKey, E))
    ∧ occursIn "OPENAI_API_KEY".toList errMsgNoKey = true
    ∧ (∀ w E T raw rs, pyEnvTruthy w.openaiApiKey = true
        → w.genOutcome = Except.ok (raw, rs)
        → pyStrip raw ≠ []
        → occursIn (sectionText (pyStrip raw) (uniq_sources rs) T) E = false
        → w.gitIdentity = Except.ok ()
        → (pyStrip (w.githubToken.getD [])).isEmpty = true
        → main w E T = (Except.error errMsgNoToken,
            E ++ sectionText (pyStrip raw) (uniq_sources rs) T))
    ∧ occursIn "GITHUB_TOKEN".toList errMsgNoToken = true
    ∧ (∀ w E T raw rs, pyEnvTruthy w.openaiApiKey = true
        → w.genOutcome = Except.ok (raw, rs)
        → pyStrip raw ≠ []
        → occursIn (sectionText (pyStrip raw) (uniq_sources rs) T) E = true
        → main w E T = (Except.ok msgUnchanged, E)) := by
  refine ⟨?_, by decide, ?_, by decide, ?_⟩
  · intro w E T hk
    simp [main, hk]
  · intro w E T raw rs hk hg ht hoc hid htok
    simp [main, hk, hg, get_sg_ipo_updates_via_web_search, List.isEmpty_iff, ht,
      append_results_to_file, hoc, hid, configure_git_remote_with_token, htok]
  · intro w E T raw rs hk hg ht hoc
    simp [main, hk, hg, get_sg_ipo_updates_via_web_search, List.isEmpty_iff, ht,
      append_results_to_file, hoc]

/-- Witness for the amended C4: with GITHUB_TOKEN absent and everything
else in order, the run ends in the GITHUB_TOKEN error after the section
was already appended to the file. -/
theorem credential_check_timing_witness :
    main (World.mk (some "k".toList) none none (Except.ok ("body".toList, []))
        (Except.ok ()) (Except.ok ()) (Except.ok ())) [] "T".toList
      = (Except.error errMsgNoToken,
        sectionText (pyStrip "body".toList) (uniq_sources []) "T".toList) :=
  credential_check_timing.2.2.1 _ [] "T".toList "body".toList [] rfl rfl
    (by decide) (by decide) rfl rfl

/-- Counterexample to C4 as stated: with the store-write credential
GITHUB_TOKEN absent from the environment the run does fail with an
error naming it, but not at startup before any write — the stored file
has already changed when the failure is raised. -/
theorem missing_token_fails_after_write :
    (main (World.mk (some "k".toList) none none (Except.ok ("body".toList, []))
        (Except.ok ()) (Except.ok ()) (Except.ok ())) [] "T".toList).1
      = Except.error errMsgNoToken
    ∧ (main (World.mk (some "k".toList) none none (Except.ok ("body".toList, []))
        (Except.ok ()) (Except.ok ()) (Except.ok ())) [] "T".toList).2 ≠ [] :=
  ⟨rfl, by decide⟩

/-- C5: with a fixed clock and identical generated body and sources,
two invocations of the pipeline perform exactly one write: the first
appends the section and pushes, the second finds the identical section
on file, leaves it unchanged and reports no change. -/
theorem fixed_clock_second_run_noop (w : World) (E raw : Str) (rs : List Str)
    (T : Str)
    (hkey : pyEnvTruthy w.openaiApiKey = true)
    (hgen : w.genOutcome = Except.ok (raw, rs))
    (htext : pyStrip raw ≠ [])
    (htok : (pyStrip (w.githubToken.getD [])).isEmpty = false)
    (hid : w.gitIdentity = Except.ok ())
    (hurl : w.gitSetUrl = Except.ok ())
    (hpush : w.gitCommitPush = Except.ok ())
    (hfresh : occursIn (sectionText (pyStrip raw) (uniq_sources rs) T) E = false) :
    main w E T
      = (Except.ok (msgPushed (pyStrip (w.githubBranch.getD "main".toList))),
        E ++ sectionText (pyStrip raw) (uniq_sources rs) T)
    ∧ main w (E ++ sectionText (pyStrip raw) (uniq_sources rs) T) T
      = (Except.ok msgUnchanged,
        E ++ sectionText (pyStrip raw) (uniq_sources rs) T) := by
  constructor
  · simp [main, hkey, hgen, get_sg_ipo_updates_via_web_search, List.isEmpty_iff,
      htext, append_results_to_file, hfresh, hid,
      configure_git_remote_with_token, htok, hurl, hpush]
  · have hoc2 : occursIn (sectionText (pyStrip raw) (uniq_sources rs) T)
        (E ++ sectionText (pyStrip raw) (uniq_sources rs) T) = true :=
      occursIn_append_self _ _
    simp [main, hkey, hgen, get_sg_ipo_updates_via_web_search, List.isEmpty_iff,
      htext, append_results_to_file, hoc2]

/-- Witness for C5: first run on an empty file appends and pushes, the
immediate rerun with the same timestamp is a reported no-op. -/
theorem fixed_clock_second_run_noop_witness :
    main Wok [] "T".toList
      = (Except.ok (msgPushed "main".toList),
        sectionText (pyStrip "body".toList) (uniq_sources []) "T".toList)
    ∧ main Wok (sectionText (pyStrip "body".toList) (uniq_sources []) "T".toList)
        "T".toList
      = (Except.ok msgUnchanged,
        sectionText (pyStrip "body".toList) (uniq_sources []) "T".toList) :=
  fixed_clock_second_run_noop Wok [] "body".toList [] "T".toList rfl rfl
    (by decide) (by decide) rfl rfl rfl (by decide)

/-- C6: whatever the environment, the generation outcome and the git
outcomes, one invocation leaves the stored file either exactly as it
was or equal to the old content with the full formatted section
appended (which the final content then contains in full); no path
leaves a partially written section. -/
theorem no_partial_section_on_error (w : World) (E T : Str) :
    (main w E T).2 = E
    ∨ ∃ b src, (main w E T).2 = E ++ sectionText b src T
        ∧ ∃ pre post, pre ++ sectionText b src T ++ post = (main w E T).2 := by
  obtain ⟨key, tok, br, gen, gid, gurl, gpush⟩ := w
  by_cases hk : pyEnvTruthy key = false
  · left
    simp [main, hk]
  · rcases gen with e | ⟨raw, rs⟩
    · left
      simp [main, hk]
    · by_cases ht : (pyStrip raw).isEmpty
      · left
        simp [main, hk, get_sg_ipo_updates_via_web_search, ht]
      · by_cases hoc : occursIn (sectionText (pyStrip raw) (uniq_sources rs) T) E
            = true
        · left
          simp [main, hk, get_sg_ipo_updates_via_web_search, ht,
            append_results_to_file, hoc]
        · have hfile :
              (main (World.mk key tok br (Except.ok (raw, rs)) gid gurl gpush) E T).2
                = E ++ sectionText (pyStrip raw) (uniq_sources rs) T := by
            rcases gid with e2 | u2 <;> rcases gurl with e3 | u3 <;>
              rcases gpush with e4 | u4 <;>
              by_cases htok : (pyStrip (tok.getD [])).isEmpty <;>
              simp [main, hk, get_sg_ipo_updates_via_web_search, ht,
                append_results_to_file, hoc, configure_git_remote_with_token, htok]
          refine Or.inr ⟨pyStrip raw, uniq_sources rs, hfile, E, [], ?_⟩
          rw [hfile]
          simp

/-- C7: the cited source URLs are de-duplicated preserving first-seen
order: the list returned by the generation step contains each distinct
URL exactly once, in the order of its first occurrence in the input. -/
theorem sources_deduped_first_seen (t : Str) (rs : List Str) :
    (get_sg_ipo_updates_via_web_search t rs).2 = dedupFirstSeen rs
    ∧ ((get_sg_ipo_updates_via_web_search t rs).2).Nodup
    ∧ ∀ u, u ∈ (get_sg_ipo_updates_via_web_search t rs).2 ↔ u ∈ rs := by
  refine ⟨uniq_sources_eq_dedupFirstSeen rs, ?_, ?_⟩
  · rw [show (get_sg_ipo_updates_via_web_search t rs).2 = uniq_sources rs from rfl,
      uniq_sources_eq_dedupSeen_nil]
    exact nodup_dedupSeen rs []
  · intro u
    rw [show (get_sg_ipo_updates_via_web_search t rs).2 = uniq_sources rs from rfl,
      uniq_sources_eq_dedupSeen_nil]
    simp [mem_dedupSeen]

end SgIpo
